import Mathlib

/-!
Verification of the multi-agent financial chat backend
(`backend/app/agents/base_agent.py`, `orchestrator.py`, `sql_analyst.py`,
`backend/app/services/conversation_manager.py`, `chat_data_service.py`,
`backend/app/api/chat.py`).

The Python code is shallowly embedded: the completion service (OpenAI) and the
database are external effects, modelled as oracles (a per-turn script for the
completion service, an abstract table plus failure flag for the database).
Python exceptions are modelled with `Except`: a function that can raise returns
`Except AgentError α`, and a propagated `.error` is an uncaught exception.
-/

namespace FinTracker

/- JSON values, as passed between the agent loop, the tool implementations and
the serialized tool messages (`json.dumps`).  Arrays and objects carry their
own cons-list types (`JArr`, `JObj`) so that decidable equality can be
derived. -/
mutual

/-- A JSON value. -/
inductive JVal where
  | null : JVal
  | bool (b : Bool) : JVal
  | num (n : ℚ) : JVal
  | str (s : String) : JVal
  | arr (xs : JArr) : JVal
  | obj (fields : JObj) : JVal
  deriving DecidableEq

/-- The element list of a JSON array. -/
inductive JArr where
  | nil : JArr
  | cons (hd : JVal) (tl : JArr) : JArr
  deriving DecidableEq

/-- The field list of a JSON object. -/
inductive JObj where
  | nil : JObj
  | cons (key : String) (val : JVal) (tl : JObj) : JObj
  deriving DecidableEq

end

/-- Lookup of the first binding of `key` in an object's field list. -/
def JObj.find? : JObj → String → Option JVal
  | .nil, _ => none
  | .cons k v tl, key => if k = key then some v else tl.find? key

/-- Field lookup in a JSON object: `d.get(key)` for a dict, `None` otherwise. -/
def JVal.get : JVal → String → Option JVal
  | .obj fields, key => fields.find? key
  | _, _ => none

/-- `key in d` for a dict (`False` for any non-dict value, matching the
`isinstance(function_response, dict) and "agent" in function_response` guard). -/
def JVal.hasKey (v : JVal) (key : String) : Bool :=
  (v.get key).isSome

/-- Minimal `json.dumps`: enough to serialize the payloads the agents build.
Only `"` and `\` are escaped; the claims under verification never depend on the
serialized text beyond it being a function of the payload. -/
def jEscape (s : String) : String :=
  s.foldl (fun acc c =>
    if c = '"' then acc ++ "\\\""
    else if c = '\\' then acc ++ "\\\\"
    else acc.push c) ""

mutual

def jDump : JVal → String
  | .null => "null"
  | .bool true => "true"
  | .bool false => "false"
  | .num n => toString n
  | .str s => "\"" ++ jEscape s ++ "\""
  | .arr xs => "[" ++ jDumpList xs ++ "]"
  | .obj fields => "\x7b" ++ jDumpFields fields ++ "\x7d"

def jDumpList : JArr → String
  | .nil => ""
  | .cons x .nil => jDump x
  | .cons x xs => jDump x ++ ", " ++ jDumpList xs

def jDumpFields : JObj → String
  | .nil => ""
  | .cons k v .nil => "\"" ++ jEscape k ++ "\": " ++ jDump v
  | .cons k v fs => "\"" ++ jEscape k ++ "\": " ++ jDump v ++ ", " ++ jDumpFields fs

end

/-- A one-field JSON object. -/
def jobj1 (k : String) (v : JVal) : JVal := .obj (.cons k v .nil)

/-- A two-field JSON object. -/
def jobj2 (k1 : String) (v1 : JVal) (k2 : String) (v2 : JVal) : JVal :=
  .obj (.cons k1 v1 (.cons k2 v2 .nil))

/-- Exceptions that can escape an agent's `chat()`.  `completionFailure` is a
failure of the completion-service call itself
(`self.client.chat.completions.create`); `execFailure` is an exception raised
inside a capability implementation (for instance a database error inside the
`ChatDataService` collaborator). -/
inductive AgentError where
  | completionFailure (msg : String)
  | execFailure (msg : String)
  deriving DecidableEq

instance {ε α : Type} [DecidableEq ε] [DecidableEq α] : DecidableEq (Except ε α) :=
  fun a b =>
    match a, b with
    | .ok x, .ok y =>
      if h : x = y then .isTrue (by rw [h]) else .isFalse (fun hh => h (by injection hh))
    | .error x, .error y =>
      if h : x = y then .isTrue (by rw [h]) else .isFalse (fun hh => h (by injection hh))
    | .ok _, .error _ => .isFalse (fun h => by injection h)
    | .error _, .ok _ => .isFalse (fun h => by injection h)

/-- One tool call requested by the completion service.  In the Python code
`tool_call.function.arguments` is a raw JSON string that the loop parses with
`json.loads`; the model carries the parsed value (parse failures are outside
the claims under verification). -/
structure ToolCall where
  id : String
  name : String
  args : JVal
  deriving DecidableEq

/-- The assistant message of one completion-service response
(`response.choices[0].message`).  An empty `tool_calls` list models the falsy
`None`/`[]` case that takes the no-tool-calls branch. -/
structure AssistantMessage where
  content : String
  tool_calls : List ToolCall
  deriving DecidableEq

/-- A `{"role": ..., "content": ...}` dict, as stored in
`BaseAgent.conversation_history` and in the `ConversationManager`. -/
structure RCMsg where
  role : String
  content : String
  deriving DecidableEq

/-- An entry of the in-loop `messages` list: plain role/content dicts
(system, user, assistant), the assistant message carrying a raw ToolCall list,
and tool-result messages. -/
inductive Msg where
  | plain (role : String) (content : String) : Msg
  | assistantCalls (content : String) (calls : List ToolCall) : Msg
  | tool (tool_call_id : String) (content : String) : Msg
  deriving DecidableEq

/-- The completion service, as seen by one `chat()` invocation: the outcome of
the `iteration`-th `chat.completions.create` call (0-based).  `.error` models
the call itself raising. -/
def CompletionScript : Type := Nat → Except AgentError AssistantMessage

/-- A capability executor: `execute_function(function_name, arguments)`.
`.error` models the implementation raising. -/
def Exec : Type := String → JVal → Except AgentError JVal

/-- The fallback string of `BaseAgent.chat` / `OrchestratorAgent.chat`,
returned when the iteration budget is exhausted. -/
def fallbackString : String :=
  "I've processed your request but needed more iterations to complete. Please try rephrasing your question."

/-- The default `max_iterations` of `chat(self, user_message, max_iterations: int = 5)`. -/
def defaultMaxIterations : Nat := 5

/-- The `for tool_call in assistant_message.tool_calls` body of
`BaseAgent.chat`: execute each call in order and append its serialized response
as a tool message.  An exception from `execute_function` propagates (there is
no `try`/`except` around the call in the source). -/
def runToolCalls (exec : Exec) : List ToolCall → List Msg → Except AgentError (List Msg)
  | [], msgs => .ok msgs
  | tc :: rest, msgs =>
    match exec tc.name tc.args with
    | .error e => .error e
    | .ok v => runToolCalls exec rest (msgs ++ [Msg.tool tc.id (jDump v)])

/-- Outcome of `BaseAgent.chat`: the returned string (or the escaped
exception), the number of completion-service calls performed, and the
agent's `conversation_history` afterwards. -/
structure BaseChatOut where
  result : Except AgentError String
  turns : Nat
  history : List RCMsg
  deriving DecidableEq

/-- The `for iteration in range(max_iterations)` loop of `BaseAgent.chat`.
`fuel` is the number of loop iterations still allowed, `used` the number of
completion-service calls already made (so the current `iteration` index is
`used`), `history` the `self.conversation_history` list (already containing the
user message). -/
def baseChatLoop (script : CompletionScript) (exec : Exec) :
    Nat → Nat → List Msg → List RCMsg → BaseChatOut
  | 0, used, _, history => ⟨.ok fallbackString, used, history⟩
  | fuel + 1, used, msgs, history =>
    match script used with
    | .error e => ⟨.error e, used + 1, history⟩
    | .ok am =>
      if am.tool_calls.isEmpty then
        ⟨.ok am.content, used + 1, history ++ [⟨"assistant", am.content⟩]⟩
      else
        let msgs := msgs ++ [Msg.assistantCalls am.content am.tool_calls]
        match runToolCalls exec am.tool_calls msgs with
        | .error e => ⟨.error e, used + 1, history⟩
        | .ok msgs => baseChatLoop script exec fuel (used + 1) msgs history

/-- `BaseAgent.chat(user_message, max_iterations)`.  `sysContent` is the
system message content, `history` the `conversation_history` on entry. -/
def baseChat (script : CompletionScript) (exec : Exec) (sysContent : String)
    (history : List RCMsg) (userMessage : String) (maxIterations : Nat) : BaseChatOut :=
  let history := history ++ [⟨"user", userMessage⟩]
  let msgs := Msg.plain "system" sysContent ::
    history.map (fun m => Msg.plain m.role m.content)
  baseChatLoop script exec maxIterations 0 msgs history

/-! ## OrchestratorAgent (`orchestrator.py`) -/

/-- One entry of `agent_timeline`: `{"agent": ..., "iteration": ..., "status": ...}`. -/
structure TimelineEntry where
  agent : JVal
  iteration : Nat
  status : String
  deriving DecidableEq

/-- The structured dict returned by `OrchestratorAgent.chat`. -/
structure OrchResult where
  response : String
  agents_consulted : List JVal
  agent_timeline : List TimelineEntry
  iterations : Nat
  deriving DecidableEq

/-- One `{type, agent, data}` record passed to the `on_agent_event` callback
that the streaming bridge attaches to the orchestrator. -/
structure QEvent where
  type : String
  agent : String
  data : JVal
  deriving DecidableEq

/-- Outcome of `OrchestratorAgent.chat`: the returned dict (or escaped
exception), completion-service calls performed, the updated
`conversation_history`, and the trace of `on_agent_event` callback
invocations made during the call. -/
structure OrchChatOut where
  result : Except AgentError OrchResult
  turns : Nat
  history : List RCMsg
  events : List QEvent
  deriving DecidableEq

/-- The `for tool_call in assistant_message.tool_calls` body of
`OrchestratorAgent.chat`: execute each call in order; when the response is a
dict containing an `"agent"` key, append that value to `agents_consulted` and
a `{agent, iteration, status: "completed"}` entry to `agent_timeline`; append
the serialized response as a tool message.  `iterNum` is `iteration + 1` of the
enclosing loop. -/
def orchRunToolCalls (exec : Exec) (iterNum : Nat) :
    List ToolCall → List Msg → List JVal → List TimelineEntry →
    Except AgentError (List Msg × List JVal × List TimelineEntry)
  | [], msgs, consulted, timeline => .ok (msgs, consulted, timeline)
  | tc :: rest, msgs, consulted, timeline =>
    match exec tc.name tc.args with
    | .error e => .error e
    | .ok v =>
      match v.get "agent" with
      | some agentName =>
        orchRunToolCalls exec iterNum rest (msgs ++ [Msg.tool tc.id (jDump v)])
          (consulted ++ [agentName]) (timeline ++ [⟨agentName, iterNum, "completed"⟩])
      | none =>
        orchRunToolCalls exec iterNum rest (msgs ++ [Msg.tool tc.id (jDump v)])
          consulted timeline

/-- The `for iteration in range(max_iterations)` loop of
`OrchestratorAgent.chat`.  `agents_consulted` is deduplicated on return by
`list(set(...))`; CPython's set iteration order is unspecified, the model fixes
one order (`List.dedup`) — no theorem below depends on that order.
The `events` component records invocations of the `on_agent_event` callback
attached by the streaming bridge; `OrchestratorAgent.chat` contains no call to
that callback, so no branch of the loop extends it. -/
def orchChatLoop (script : CompletionScript) (exec : Exec) (maxIterations : Nat) :
    Nat → Nat → List Msg → List JVal → List TimelineEntry → List RCMsg → List QEvent →
    OrchChatOut
  | 0, used, _, consulted, timeline, history, events =>
    ⟨.ok ⟨fallbackString, consulted.dedup, timeline, maxIterations⟩, used, history, events⟩
  | fuel + 1, used, msgs, consulted, timeline, history, events =>
    match script used with
    | .error e => ⟨.error e, used + 1, history, events⟩
    | .ok am =>
      if am.tool_calls.isEmpty then
        ⟨.ok ⟨am.content, consulted.dedup, timeline, used + 1⟩, used + 1,
          history ++ [⟨"assistant", am.content⟩], events⟩
      else
        let msgs := msgs ++ [Msg.assistantCalls am.content am.tool_calls]
        match orchRunToolCalls exec (used + 1) am.tool_calls msgs consulted timeline with
        | .error e => ⟨.error e, used + 1, history, events⟩
        | .ok (msgs, consulted, timeline) =>
          orchChatLoop script exec maxIterations fuel (used + 1) msgs consulted timeline
            history events

/-- `OrchestratorAgent.chat(user_message, max_iterations)`. -/
def orchChat (script : CompletionScript) (exec : Exec) (sysContent : String)
    (history : List RCMsg) (userMessage : String) (maxIterations : Nat) : OrchChatOut :=
  let history := history ++ [⟨"user", userMessage⟩]
  let msgs := Msg.plain "system" sysContent ::
    history.map (fun m => Msg.plain m.role m.content)
  orchChatLoop script exec maxIterations maxIterations 0 msgs [] [] history []

/-- `OrchestratorAgent.execute_function`.  The two `consult_*` capabilities
call the owned specialized agents' `chat` (here the oracles `sqlChat`,
`advChat`, whose `.error` models `chat` raising) and wrap the reply as
`{"agent": ..., "response": ...}`; any other name yields the structured
unknown-function payload.  `arguments.get("query", "")` is read as a string
(a non-string `"query"` value, which Python would pass through unchanged, is
not exercised by any claim and reads as `""`). -/
def orchExecuteFunction (sqlChat advChat : String → Except AgentError String)
    (function_name : String) (arguments : JVal) : Except AgentError JVal :=
  let query : String :=
    match arguments.get "query" with
    | some (.str s) => s
    | _ => ""
  if function_name = "consult_sql_analyst" then
    match sqlChat query with
    | .error e => .error e
    | .ok response => .ok (jobj2 "agent" (.str "SQL Analyst") "response" (.str response))
  else if function_name = "consult_financial_advisor" then
    match advChat query with
    | .error e => .error e
    | .ok response => .ok (jobj2 "agent" (.str "Financial Advisor") "response" (.str response))
  else
    .ok (jobj1 "error" (.str ("Unknown function: " ++ function_name)))

/-! ## ChatDataService (`chat_data_service.py`) and the SQL analyst's dispatch
(`sql_analyst.py`) -/

/-- A row of the `expenses` table, with the columns `get_spending_summary`
touches.  `amount` is nullable (`exp.amount or 0`). -/
structure Expense where
  user_id : Nat
  date : String
  amount : Option ℚ
  status : Bool
  deriving DecidableEq

/-- The database behind the read-only `ChatDataService` collaborator: an
abstract expense table plus a failure flag — when set, executing a query
raises (e.g. `sqlalchemy.exc.OperationalError`), modelling a database
failure. -/
structure DBState where
  expenses : List Expense
  failure : Option String
  deriving DecidableEq

/-- The query built by `get_spending_summary` (`filter(user_id == ...)`, then
the optional date-range filters) followed by `.all()`, the point at which a
database failure surfaces as an exception.  Dates are ISO strings compared
lexicographically, matching the SQL comparison. -/
def queryExpenses (db : DBState) (uid : Nat) (sd ed : Option String) :
    Except AgentError (List Expense) :=
  match db.failure with
  | some msg => .error (.execFailure msg)
  | none =>
    let q := db.expenses.filter (fun e => e.user_id == uid)
    let q := match sd with
      | some s => q.filter (fun e => decide (s ≤ e.date))
      | none => q
    let q := match ed with
      | some s => q.filter (fun e => decide (e.date ≤ s))
      | none => q
    .ok q

/-- Python's `round(x, 2)` on the accumulated amount, modelled as exact
rational rounding to two decimals (float representation and its
round-half-even ties are abstracted away; no claim depends on the numerals). -/
def round2 (x : ℚ) : ℚ := (round (x * 100) : ℤ) / 100

/-- `None` becomes JSON `null`, as in the `date_range` sub-dict. -/
def jOptStr : Option String → JVal
  | some s => .str s
  | none => .null

/-- `ChatDataService.get_spending_summary(start_date, end_date)`. -/
def get_spending_summary (db : DBState) (uid : Nat) (sd ed : Option String) :
    Except AgentError JVal :=
  match queryExpenses db uid sd ed with
  | .error e => .error e
  | .ok expenses =>
    let total_spent : ℚ := (expenses.map (fun e => e.amount.getD 0)).sum
    let active_expenses := expenses.filter (fun e => e.status)
    let total_active_spent : ℚ := (active_expenses.map (fun e => e.amount.getD 0)).sum
    .ok (.obj (.cons "total_expenses" (.num expenses.length)
      (.cons "total_amount" (.num (round2 total_spent))
      (.cons "active_expenses" (.num active_expenses.length)
      (.cons "active_amount" (.num (round2 total_active_spent))
      (.cons "date_range" (jobj2 "start" (jOptStr sd) "end" (jOptStr ed)) .nil))))))

/-- The `ChatDataService` collaborator as the SQL analyst sees it:
`get_spending_summary` is translated concretely above; the remaining
data-retrieval methods are oracles over the same external database — each
either returns a payload or raises. -/
structure ChatDataService where
  db : DBState
  user_id : Nat
  get_database_schema : Except AgentError JVal
  get_user_profile : Except AgentError JVal
  get_current_income_sources : Except AgentError JVal
  get_category_breakdown : Option JVal → Option JVal → Except AgentError JVal
  get_subcategory_breakdown : Option JVal → Except AgentError JVal
  get_account_summary : Except AgentError JVal
  get_monthly_trends : JVal → Except AgentError JVal
  get_savings_summary : Except AgentError JVal
  get_income_summary : Option JVal → Except AgentError JVal
  get_expense_templates : Except AgentError JVal

/-- `arguments.get(key)` read as an optional string (the date arguments of
`get_spending_summary`; non-string values are not exercised by any claim). -/
def jGetStr (args : JVal) (key : String) : Option String :=
  match args.get key with
  | some (.str s) => some s
  | _ => none

/-- The capability names registered in `SQLAnalystAgent.execute_function`'s
dispatch chain. -/
def registeredSQLFunctionNames : List String :=
  ["get_database_schema", "get_user_profile", "get_current_income_sources",
   "get_spending_summary", "get_category_breakdown", "get_subcategory_breakdown",
   "get_account_summary", "get_monthly_trends", "get_savings_summary",
   "get_income_summary", "get_expense_templates"]

/-- `SQLAnalystAgent.execute_function(function_name, arguments)`: string-keyed
dispatch to the data service; the final `else` returns the structured
`{"error": "Unknown function: <name>"}` payload. -/
def sqlExecuteFunction (ds : ChatDataService) : Exec := fun function_name arguments =>
  if function_name = "get_database_schema" then ds.get_database_schema
  else if function_name = "get_user_profile" then ds.get_user_profile
  else if function_name = "get_current_income_sources" then ds.get_current_income_sources
  else if function_name = "get_spending_summary" then
    get_spending_summary ds.db ds.user_id
      (jGetStr arguments "start_date") (jGetStr arguments "end_date")
  else if function_name = "get_category_breakdown" then
    ds.get_category_breakdown (arguments.get "start_date") (arguments.get "end_date")
  else if function_name = "get_subcategory_breakdown" then
    ds.get_subcategory_breakdown (arguments.get "category_name")
  else if function_name = "get_account_summary" then ds.get_account_summary
  else if function_name = "get_monthly_trends" then
    ds.get_monthly_trends ((arguments.get "months").getD (.num 6))
  else if function_name = "get_savings_summary" then ds.get_savings_summary
  else if function_name = "get_income_summary" then
    ds.get_income_summary (arguments.get "month")
  else if function_name = "get_expense_templates" then ds.get_expense_templates
  else .ok (jobj1 "error" (.str ("Unknown function: " ++ function_name)))

/-- The structured payload produced for an unknown capability name. -/
def unknownFunctionPayload (name : String) : JVal :=
  jobj1 "error" (.str ("Unknown function: " ++ name))

/-! ## ConversationManager (`conversation_manager.py`)

Time is an abstract `Nat` count of seconds; every operation takes the current
time `now` (the `datetime.now()` it would observe).  The `conversations` dict
is an insertion-ordered association list with unique keys, as a Python dict. -/

/-- One value of the `conversations` dict:
`{"messages": [...], "last_updated": datetime}`. -/
structure SessionData where
  messages : List RCMsg
  last_updated : Nat
  deriving DecidableEq

/-- The `conversations` dict, keyed by `user_id`. -/
def MgrState : Type := List (Nat × SessionData)

/-- `user_id in self.conversations` / `self.conversations[user_id]`. -/
def mgrLookup (convs : MgrState) (uid : Nat) : Option SessionData :=
  (convs.find? (fun p => p.1 == uid)).map Prod.snd

/-- `self.conversations[user_id] = d`: update in place when the key exists
(dict order preserved), otherwise append. -/
def mgrInsert (uid : Nat) (d : SessionData) : MgrState → MgrState
  | [] => [(uid, d)]
  | (k, v) :: tl => if k = uid then (uid, d) :: tl else (k, v) :: mgrInsert uid d tl

/-- `self.timeout_minutes = 30`, in seconds. -/
def timeoutSeconds : Nat := 30 * 60

/-- `_cleanup_old_conversations`: delete every session whose `last_updated`
is strictly before `now - 30 minutes`. -/
def cleanupOldConversations (now : Nat) (convs : MgrState) : MgrState :=
  convs.filter (fun p => ¬ p.2.last_updated < now - timeoutSeconds)

/-- `ConversationManager.get_history(user_id)`: run the cleanup sweep, then
return the stored messages (empty when the key is absent) along with the
updated state. -/
def getHistory (now : Nat) (uid : Nat) (convs : MgrState) : List RCMsg × MgrState :=
  let convs := cleanupOldConversations now convs
  match mgrLookup convs uid with
  | none => ([], convs)
  | some d => (d.messages, convs)

/-- `ConversationManager.add_message(user_id, role, content)`: create the
session if absent, append the message, refresh `last_updated`, and keep only
the last 20 messages. -/
def addMessage (now : Nat) (uid : Nat) (role content : String) (convs : MgrState) :
    MgrState :=
  let d := (mgrLookup convs uid).getD ⟨[], now⟩
  let messages := d.messages ++ [⟨role, content⟩]
  let messages :=
    if messages.length > 20 then messages.drop (messages.length - 20) else messages
  mgrInsert uid ⟨messages, now⟩ convs

/-- `ConversationManager.clear_history(user_id)`. -/
def clearHistory (uid : Nat) (convs : MgrState) : MgrState :=
  convs.filter (fun p => ¬ p.1 == uid)

/-! ## The streaming bridge (`chat.py`, `stream_chat_message.event_generator`)

The generator's observable output is the ordered list of SSE frames it yields.
Everything in the `try` block before `yield start` (constructing
`ChatDataService` and `OrchestratorAgent` — the latter queries the database for
the user profile — and loading history) can raise; `future.result()` re-raises
an exception escaping `orchestrator.chat`; otherwise the queue is drained and
the `response` and `done` frames follow.  Frames reach the caller strictly in
yield order; when `future.result()` raises, queue records not yet forwarded by
the polling loop are dropped, so only a prefix (`drained`) of the enqueued
records has been emitted. -/

/-- The typed frames of the streaming protocol. -/
inductive Frame where
  | start : Frame
  | event (e : QEvent) : Frame
  | response (text : String) (agents_consulted : List JVal) (iterations : Nat) : Frame
  | done : Frame
  | error (msg : String) : Frame
  deriving DecidableEq

/-- `str(e)` for a propagated exception. -/
def AgentError.message : AgentError → String
  | .completionFailure m => m
  | .execFailure m => m

/-- One execution of `event_generator`, classified by where (if anywhere) an
exception reached the `except` clause: before `yield start`, out of
`future.result()` (with the number of queue records already forwarded), or not
at all. -/
inductive StreamRun where
  | initFail (msg : String) : StreamRun
  | chatFail (events : List QEvent) (drained : Nat) (msg : String) : StreamRun
  | success (events : List QEvent) (result : OrchResult) : StreamRun

/-- The frame sequence yielded by `event_generator` on a given run. -/
def eventGenerator : StreamRun → List Frame
  | .initFail msg => [.error msg]
  | .chatFail events drained msg =>
    Frame.start :: (events.take drained).map Frame.event ++ [.error msg]
  | .success events r =>
    Frame.start :: events.map Frame.event ++
      [.response r.response r.agents_consulted r.iterations, .done]

/-- The run of `event_generator` induced by an `orchestrator.chat` outcome
(`drained` is only relevant when the chat raised). -/
def streamRunOfChat (o : OrchChatOut) (drained : Nat) : StreamRun :=
  match o.result with
  | .ok r => .success o.events r
  | .error e => .chatFail o.events drained e.message

/-- Terminal frames: `done` and `error`. -/
def isTerminalFrame : Frame → Bool
  | .done => true
  | .error _ => true
  | _ => false

/-! ## Concrete inputs used by witnesses and counterexamples -/

/-- A completion script that requests one tool call on every turn. -/
def scriptAllCalls : CompletionScript := fun _ => .ok ⟨"", [⟨"call_1", "noop", .null⟩]⟩

/-- A capability executor that always succeeds with `null`. -/
def execOkNull : Exec := fun _ _ => .ok .null

/-! ## Helper lemmas about the base agent loop -/

lemma baseChatLoop_zero (script : CompletionScript) (exec : Exec)
    (used : Nat) (msgs : List Msg) (history : List RCMsg) :
    baseChatLoop script exec 0 used msgs history =
      ⟨Except.ok fallbackString, used, history⟩ := rfl

lemma baseChatLoop_succ (script : CompletionScript) (exec : Exec)
    (n used : Nat) (msgs : List Msg) (history : List RCMsg) :
    baseChatLoop script exec (n + 1) used msgs history =
      (match script used with
      | .error e => ⟨.error e, used + 1, history⟩
      | .ok am =>
        if am.tool_calls.isEmpty then
          ⟨.ok am.content, used + 1, history ++ [⟨"assistant", am.content⟩]⟩
        else
          match runToolCalls exec am.tool_calls
              (msgs ++ [Msg.assistantCalls am.content am.tool_calls]) with
          | .error e => ⟨.error e, used + 1, history⟩
          | .ok msgs' => baseChatLoop script exec n (used + 1) msgs' history) := rfl

lemma baseChatLoop_turns_le (script : CompletionScript) (exec : Exec) :
    ∀ fuel used msgs history,
      (baseChatLoop script exec fuel used msgs history).turns ≤ used + fuel := by
  intro fuel
  induction fuel with
  | zero => intro used msgs history; simp [baseChatLoop_zero]
  | succ n ih =>
    intro used msgs history
    rw [baseChatLoop_succ]
    cases script used with
    | error e => simp
    | ok am =>
      by_cases hemp : am.tool_calls.isEmpty
      · simp [hemp]
      · simp only [hemp, Bool.false_eq_true, if_false]
        cases hrun : runToolCalls exec am.tool_calls
            (msgs ++ [Msg.assistantCalls am.content am.tool_calls]) with
        | error e => simp
        | ok msgs' =>
          simp only []
          calc (baseChatLoop script exec n (used + 1) msgs' history).turns
              ≤ (used + 1) + n := ih (used + 1) msgs' history
            _ ≤ used + (n + 1) := by omega

lemma runToolCalls_all_ok (exec : Exec) (hexec : ∀ n a, ∃ v, exec n a = Except.ok v) :
    ∀ tcs msgs, ∃ msgs', runToolCalls exec tcs msgs = Except.ok msgs' := by
  intro tcs
  induction tcs with
  | nil => intro msgs; exact ⟨msgs, rfl⟩
  | cons tc rest ih =>
    intro msgs
    obtain ⟨v, hv⟩ := hexec tc.name tc.args
    obtain ⟨msgs', hmsgs'⟩ := ih (msgs ++ [Msg.tool tc.id (jDump v)])
    exact ⟨msgs', by simp [runToolCalls, hv, hmsgs']⟩

lemma baseChatLoop_exhausts (script : CompletionScript) (exec : Exec)
    (hexec : ∀ n a, ∃ v, exec n a = Except.ok v) :
    ∀ fuel used,
      (∀ i, used ≤ i → i < used + fuel →
        ∃ am, script i = Except.ok am ∧ am.tool_calls ≠ []) →
      ∀ msgs history,
        baseChatLoop script exec fuel used msgs history =
          ⟨Except.ok fallbackString, used + fuel, history⟩ := by
  intro fuel
  induction fuel with
  | zero => intro used _ msgs history; simp [baseChatLoop_zero]
  | succ n ih =>
    intro used hscript msgs history
    obtain ⟨am, ham, hcalls⟩ := hscript used (le_refl used) (by omega)
    have hemp : am.tool_calls.isEmpty = false := by
      cases h : am.tool_calls with
      | nil => exact absurd h hcalls
      | cons a l => simp [h]
    obtain ⟨msgs', hrun⟩ := runToolCalls_all_ok exec hexec am.tool_calls
      (msgs ++ [Msg.assistantCalls am.content am.tool_calls])
    have hrec := ih (used + 1) (fun i h1 h2 => hscript i (by omega) (by omega)) msgs' history
    rw [baseChatLoop_succ, ham]
    simp only [hemp, Bool.false_eq_true, if_false, hrun, hrec]
    congr 1
    omega

/-- **C1.** For every user message and every `maxIterations ≥ 1`, `chat()`
performs at most `maxIterations` completion-service turns (the default bound
being 5) and always yields an outcome; when every available turn succeeds,
requests tool calls, and every capability execution succeeds, the bound is
reached and the returned value is exactly the fixed fallback string — a normal
return, not an exception. -/
theorem C1_chat_iteration_bound (script : CompletionScript) (exec : Exec)
    (sysContent : String) (history : List RCMsg) (userMessage : String)
    (maxIterations : Nat) (hmax : 1 ≤ maxIterations) :
    (baseChat script exec sysContent history userMessage maxIterations).turns
        ≤ maxIterations ∧
    defaultMaxIterations = 5 ∧
    ((∀ n a, ∃ v, exec n a = Except.ok v) →
      (∀ i, i < maxIterations → ∃ am, script i = Except.ok am ∧ am.tool_calls ≠ []) →
      (baseChat script exec sysContent history userMessage maxIterations).result
        = Except.ok fallbackString) := by
  refine ⟨?_, rfl, ?_⟩
  · simp only [baseChat]
    exact le_trans (baseChatLoop_turns_le script exec maxIterations 0 _ _) (by omega)
  · intro hexec hscript
    simp only [baseChat]
    rw [baseChatLoop_exhausts script exec hexec maxIterations 0
      (fun i _ h2 => hscript i (by omega))]

/-- Witness for C1 at `maxIterations = 2` with a script that always requests a
tool call: the loop stops after 2 turns with the fallback string. -/
theorem C1_chat_iteration_bound_witness :
    (baseChat scriptAllCalls execOkNull "sys" [] "hello" 2).turns ≤ 2 ∧
    (baseChat scriptAllCalls execOkNull "sys" [] "hello" 2).result
      = Except.ok fallbackString :=
  have h := C1_chat_iteration_bound scriptAllCalls execOkNull "sys" [] "hello" 2
    (by decide)
  ⟨h.1, h.2.2 (fun n a => ⟨.null, rfl⟩)
    (fun i _ => ⟨⟨"", [⟨"call_1", "noop", .null⟩]⟩, rfl, by simp⟩)⟩

/-! ## C2: unknown capability names -/

/-- A data service whose oracle methods all succeed with `null`, over a given
database. -/
def dsAllNull (db : DBState) (uid : Nat) : ChatDataService :=
  ⟨db, uid, .ok .null, .ok .null, .ok .null, fun _ _ => .ok .null, fun _ => .ok .null,
   .ok .null, fun _ => .ok .null, .ok .null, fun _ => .ok .null, .ok .null⟩

/-- A data service over a healthy, empty database. -/
def dsHealthy : ChatDataService := dsAllNull ⟨[], none⟩ 1

/-- A script whose first turn requests one call to a name with no registered
implementation. -/
def scriptUnknownCall : CompletionScript :=
  fun _ => .ok ⟨"", [⟨"call_1", "get_stock_price", .obj .nil⟩]⟩

/-- **C2.** For every capability name with no registered implementation,
`execute_function` returns the structured payload
`{"error": "Unknown function: <name>"}` (it does not raise), and a loop turn
whose tool call carries such a name appends that payload as a tool message and
proceeds to the next completion-service turn. -/
theorem C2_unknown_capability (ds : ChatDataService) (name : String) (args : JVal)
    (hname : name ∉ registeredSQLFunctionNames) :
    sqlExecuteFunction ds name args = Except.ok (unknownFunctionPayload name) ∧
    ∀ (script : CompletionScript) (fuel used : Nat) (msgs : List Msg)
      (history : List RCMsg) (tcid content : String),
      script used = Except.ok ⟨content, [⟨tcid, name, args⟩]⟩ →
      baseChatLoop script (sqlExecuteFunction ds) (fuel + 1) used msgs history =
        baseChatLoop script (sqlExecuteFunction ds) fuel (used + 1)
          (msgs ++ [Msg.assistantCalls content [⟨tcid, name, args⟩],
                    Msg.tool tcid (jDump (unknownFunctionPayload name))]) history := by
  simp only [registeredSQLFunctionNames, List.mem_cons, List.mem_singleton, not_or] at hname
  obtain ⟨h1, h2, h3, h4, h5, h6, h7, h8, h9, h10, h11⟩ := hname
  have hdispatch : sqlExecuteFunction ds name args = Except.ok (unknownFunctionPayload name) := by
    simp [sqlExecuteFunction, unknownFunctionPayload, h1, h2, h3, h4, h5, h6, h7, h8, h9,
      h10, h11]
  refine ⟨hdispatch, ?_⟩
  intro script fuel used msgs history tcid content hscript
  rw [baseChatLoop_succ, hscript]
  simp [runToolCalls, hdispatch]

/-- Witness for C2: the unregistered name `get_stock_price` yields the
structured error payload, and the loop carries on to the next turn with that
payload appended as a tool message. -/
theorem C2_unknown_capability_witness :
    sqlExecuteFunction dsHealthy "get_stock_price" (.obj .nil)
      = Except.ok (unknownFunctionPayload "get_stock_price") ∧
    baseChatLoop scriptUnknownCall (sqlExecuteFunction dsHealthy) 4 0 [] [] =
      baseChatLoop scriptUnknownCall (sqlExecuteFunction dsHealthy) 3 1
        ([Msg.assistantCalls "" [⟨"call_1", "get_stock_price", .obj .nil⟩],
          Msg.tool "call_1" (jDump (unknownFunctionPayload "get_stock_price"))]) [] :=
  have h := C2_unknown_capability dsHealthy "get_stock_price" (.obj .nil) (by decide)
  ⟨h.1, h.2 scriptUnknownCall 3 0 [] [] "call_1" "" rfl⟩

/-! ## C3: capability-execution failures -/

/-- A data service over a database whose queries raise. -/
def dsFailingDB : ChatDataService :=
  dsAllNull ⟨[], some "OperationalError: connection refused"⟩ 1

/-- A script whose first turn requests one `get_spending_summary` call. -/
def scriptSpendingCall : CompletionScript :=
  fun _ => .ok ⟨"", [⟨"call_1", "get_spending_summary", .obj .nil⟩]⟩

/-- Counterexample to C3 as stated: when the read-only data-access
collaborator fails inside the `get_spending_summary` capability, the exception
is **not** converted to structured data — it escapes `chat()` as a raised
error, even though it is not a completion-service failure. -/
theorem C3_counterexample :
    (baseChat scriptSpendingCall (sqlExecuteFunction dsFailingDB) "sys" []
        "how much did I spend?" 5).result
      = Except.error (AgentError.execFailure "OperationalError: connection refused") := by
  rfl

/-- **C3 (amended).**  An exception raised by a capability implementation
(for instance the data-access collaborator failing inside
`get_spending_summary`) propagates out of the loop exactly like a
completion-service failure; only the unknown-capability case is converted to
structured data fed back into the loop. -/
theorem C3_amended_failure_propagation :
    (∀ (script : CompletionScript) (exec : Exec) (fuel used : Nat) (msgs : List Msg)
      (history : List RCMsg) am tc rest e,
      script used = Except.ok am → am.tool_calls = tc :: rest →
      exec tc.name tc.args = Except.error e →
      baseChatLoop script exec (fuel + 1) used msgs history
        = ⟨Except.error e, used + 1, history⟩) ∧
    (∀ (script : CompletionScript) (exec : Exec) (fuel used : Nat) (msgs : List Msg)
      (history : List RCMsg) e,
      script used = Except.error e →
      baseChatLoop script exec (fuel + 1) used msgs history
        = ⟨Except.error e, used + 1, history⟩) ∧
    (∀ (db : DBState) uid sd ed msg, db.failure = some msg →
      get_spending_summary db uid sd ed
        = Except.error (AgentError.execFailure msg)) := by
  refine ⟨?_, ?_, ?_⟩
  · intro script exec fuel used msgs history am tc rest e hscript hcalls hexec
    rw [baseChatLoop_succ, hscript]
    simp [hcalls, runToolCalls, hexec]
  · intro script exec fuel used msgs history e hscript
    rw [baseChatLoop_succ, hscript]
  · intro db uid sd ed msg hfail
    simp [get_spending_summary, queryExpenses, hfail]

/-- Witness for the amended C3: the database failure surfaces as a raised
exception out of the loop on the first turn. -/
theorem C3_amended_failure_propagation_witness :
    baseChatLoop scriptSpendingCall (sqlExecuteFunction dsFailingDB) 5 0 [] [] =
      ⟨Except.error (AgentError.execFailure "OperationalError: connection refused"), 1, []⟩ :=
  C3_amended_failure_propagation.1 scriptSpendingCall (sqlExecuteFunction dsFailingDB)
    4 0 [] [] ⟨"", [⟨"call_1", "get_spending_summary", .obj .nil⟩]⟩
    ⟨"call_1", "get_spending_summary", .obj .nil⟩ [] _ rfl rfl rfl

/-! ## Helper lemmas about the orchestrator loop -/

lemma orchChatLoop_zero (script : CompletionScript) (exec : Exec) (maxIterations used : Nat)
    (msgs : List Msg) (consulted : List JVal) (timeline : List TimelineEntry)
    (history : List RCMsg) (events : List QEvent) :
    orchChatLoop script exec maxIterations 0 used msgs consulted timeline history events =
      ⟨Except.ok ⟨fallbackString, consulted.dedup, timeline, maxIterations⟩, used,
        history, events⟩ := rfl

lemma orchChatLoop_succ (script : CompletionScript) (exec : Exec) (maxIterations n used : Nat)
    (msgs : List Msg) (consulted : List JVal) (timeline : List TimelineEntry)
    (history : List RCMsg) (events : List QEvent) :
    orchChatLoop script exec maxIterations (n + 1) used msgs consulted timeline history events =
      (match script used with
      | .error e => ⟨.error e, used + 1, history, events⟩
      | .ok am =>
        if am.tool_calls.isEmpty then
          ⟨.ok ⟨am.content, consulted.dedup, timeline, used + 1⟩, used + 1,
            history ++ [⟨"assistant", am.content⟩], events⟩
        else
          match orchRunToolCalls exec (used + 1) am.tool_calls
              (msgs ++ [Msg.assistantCalls am.content am.tool_calls]) consulted timeline with
          | .error e => ⟨.error e, used + 1, history, events⟩
          | .ok (msgs', consulted', timeline') =>
            orchChatLoop script exec maxIterations n (used + 1) msgs' consulted' timeline'
              history events) := rfl

lemma orchChatLoop_events_eq (script : CompletionScript) (exec : Exec) (maxIterations : Nat) :
    ∀ fuel used msgs consulted timeline history events,
      (orchChatLoop script exec maxIterations fuel used msgs consulted timeline history
        events).events = events := by
  intro fuel
  induction fuel with
  | zero => intro used msgs consulted timeline history events; rw [orchChatLoop_zero]
  | succ n ih =>
    intro used msgs consulted timeline history events
    rw [orchChatLoop_succ]
    cases script used with
    | error e => rfl
    | ok am =>
      by_cases hemp : am.tool_calls.isEmpty
      · simp [hemp]
      · simp only [hemp, Bool.false_eq_true, if_false]
        cases orchRunToolCalls exec (used + 1) am.tool_calls
            (msgs ++ [Msg.assistantCalls am.content am.tool_calls]) consulted timeline with
        | error e => rfl
        | ok triple =>
          obtain ⟨msgs', consulted', timeline'⟩ := triple
          exact ih (used + 1) msgs' consulted' timeline' history events

lemma orchChatLoop_consulted_dedup (script : CompletionScript) (exec : Exec)
    (maxIterations : Nat) :
    ∀ fuel used msgs consulted timeline history events r,
      (orchChatLoop script exec maxIterations fuel used msgs consulted timeline history
        events).result = Except.ok r →
      ∃ l : List JVal, r.agents_consulted = l.dedup := by
  intro fuel
  induction fuel with
  | zero =>
    intro used msgs consulted timeline history events r hr
    rw [orchChatLoop_zero] at hr
    exact ⟨consulted, by injection hr with h; rw [← h]⟩
  | succ n ih =>
    intro used msgs consulted timeline history events r hr
    rw [orchChatLoop_succ] at hr
    cases hs : script used with
    | error e => rw [hs] at hr; cases hr
    | ok am =>
      rw [hs] at hr
      by_cases hemp : am.tool_calls.isEmpty
      · simp only [hemp, if_true] at hr
        exact ⟨consulted, by injection hr with h; rw [← h]⟩
      · simp only [hemp, Bool.false_eq_true, if_false] at hr
        cases hrun : orchRunToolCalls exec (used + 1) am.tool_calls
            (msgs ++ [Msg.assistantCalls am.content am.tool_calls]) consulted timeline with
        | error e => rw [hrun] at hr; cases hr
        | ok triple =>
          obtain ⟨msgs', consulted', timeline'⟩ := triple
          rw [hrun] at hr
          exact ih (used + 1) msgs' consulted' timeline' history events r hr

/-! ## C4: the streaming bridge never receives agent-activity records -/

/-- A script that requests one delegation to each specialized agent on the
first turn and answers on the second. -/
def scriptTwoDelegations : CompletionScript := fun i =>
  if i = 0 then
    .ok ⟨"", [⟨"call_1", "consult_sql_analyst", jobj1 "query" (.str "spending?")⟩,
              ⟨"call_2", "consult_financial_advisor", jobj1 "query" (.str "advice?")⟩]⟩
  else .ok ⟨"Here is your combined answer.", []⟩

/-- The orchestrator's executor with sub-agents that reply immediately. -/
def execTwoAgents : Exec :=
  orchExecuteFunction (fun _ => .ok "analysis") (fun _ => .ok "advice")

/-- **C4 (code bug).**  `OrchestratorAgent.chat` never invokes the
`on_agent_event` callback the streaming bridge attaches, so no delegation ever
enqueues a `{type, agent, data}` record: the callback-invocation trace of every
invocation is empty, and a streaming invocation with two completed delegations
yields `start`, `response`, `done` — with no `agent-activity` frames in
between, contrary to the documented streaming protocol. -/
theorem C4_no_agent_activity_frames :
    (∀ (script : CompletionScript) (exec : Exec) (sys : String) (history : List RCMsg)
      (msg : String) (maxI : Nat),
      (orchChat script exec sys history msg maxI).events = []) ∧
    eventGenerator
        (streamRunOfChat (orchChat scriptTwoDelegations execTwoAgents "sys" [] "hi" 5) 0)
      = [Frame.start,
         Frame.response "Here is your combined answer."
           [JVal.str "SQL Analyst", JVal.str "Financial Advisor"] 2,
         Frame.done] := by
  constructor
  · intro script exec sys history msg maxI
    exact orchChatLoop_events_eq script exec maxI maxI 0 _ _ _ _ _
  · decide

/-! ## C5: deduplicated consulted set, per-delegation timeline -/

/-- A script that requests three delegations to the SQL analyst in one turn. -/
def scriptThreeSameAgent : CompletionScript := fun i =>
  if i = 0 then
    .ok ⟨"", [⟨"call_1", "consult_sql_analyst", jobj1 "query" (.str "a")⟩,
              ⟨"call_2", "consult_sql_analyst", jobj1 "query" (.str "b")⟩,
              ⟨"call_3", "consult_sql_analyst", jobj1 "query" (.str "c")⟩]⟩
  else .ok ⟨"Answer.", []⟩

/-- A script whose first turn interleaves the two agents: SQL analyst,
financial advisor, SQL analyst again. -/
def scriptMixedTurn : CompletionScript := fun i =>
  if i = 0 then
    .ok ⟨"", [⟨"call_1", "consult_sql_analyst", jobj1 "query" (.str "a")⟩,
              ⟨"call_2", "consult_financial_advisor", jobj1 "query" (.str "b")⟩,
              ⟨"call_3", "consult_sql_analyst", jobj1 "query" (.str "c")⟩]⟩
  else .ok ⟨"Answer.", []⟩

/-- The `OrchResult` of the three-delegations-to-one-agent run. -/
def rThreeSame : OrchResult :=
  ⟨"Answer.", [.str "SQL Analyst"],
   [⟨.str "SQL Analyst", 1, "completed"⟩,
    ⟨.str "SQL Analyst", 1, "completed"⟩,
    ⟨.str "SQL Analyst", 1, "completed"⟩], 2⟩

/-- **C5.**  `agents_consulted` never contains duplicates; three delegations to
the SQL analyst in one turn yield a single consulted entry but three timeline
entries, all carrying the iteration number (1) of the turn in which they
occurred; and a mixed turn's timeline lists the delegations in the completion
service's tool-call order, sharing that iteration number.  (`list(set(...))`
leaves the order of the consulted names unspecified; the model fixes one
order, and only duplicate-freedom and membership are claimed of it.) -/
theorem C5_consulted_set_timeline :
    (∀ (script : CompletionScript) (exec : Exec) (sys : String) (history : List RCMsg)
      (msg : String) (maxI : Nat) (r : OrchResult),
      (orchChat script exec sys history msg maxI).result = Except.ok r →
      r.agents_consulted.Nodup) ∧
    (orchChat scriptThreeSameAgent execTwoAgents "sys" [] "hi" 5).result =
      Except.ok rThreeSame ∧
    (orchChat scriptMixedTurn execTwoAgents "sys" [] "hi" 5).result =
      Except.ok ⟨"Answer.", [.str "Financial Advisor", .str "SQL Analyst"],
        [⟨.str "SQL Analyst", 1, "completed"⟩,
         ⟨.str "Financial Advisor", 1, "completed"⟩,
         ⟨.str "SQL Analyst", 1, "completed"⟩], 2⟩ := by
  refine ⟨?_, by decide, by decide⟩
  intro script exec sys history msg maxI r hr
  obtain ⟨l, hl⟩ := orchChatLoop_consulted_dedup script exec maxI maxI 0 _ _ _ _ _ r hr
  rw [hl]
  exact List.nodup_dedup l

/-- Witness for C5: the deduplicated consulted list of the
three-delegations-to-one-agent run is duplicate-free. -/
theorem C5_consulted_set_timeline_witness : rThreeSame.agents_consulted.Nodup :=
  C5_consulted_set_timeline.1 scriptThreeSameAgent execTwoAgents "sys" [] "hi" 5
    rThreeSame (by decide)

/-! ## C9: sub-agent iteration-budget exhaustion is a completed consultation -/

/-- The `{"agent": "SQL Analyst", "response": <fallback>}` payload a delegation
returns when the sub-agent exhausted its budget. -/
def sqlFallbackPayload : JVal :=
  jobj2 "agent" (.str "SQL Analyst") "response" (.str fallbackString)

/-- **C9.**  When the SQL analyst's own `chat` (run with its default budget)
exhausts its iteration budget — every turn succeeds, requests tool calls, and
every capability succeeds — the delegation still returns the sub-agent's
fallback string wrapped as `{"agent": ..., "response": ...}`; the orchestrator
loop records it in the timeline with status `"completed"`, appends the agent
to the consulted list, and proceeds — sub-agent exhaustion never becomes an
orchestration-level error. -/
theorem C9_subagent_exhaustion_completed (subScript : CompletionScript) (subExec : Exec)
    (subSys : String) (subHist : List RCMsg)
    (sqlChat advChat : String → Except AgentError String)
    (hsub : ∀ q, sqlChat q =
      (baseChat subScript subExec subSys subHist q defaultMaxIterations).result)
    (hexec : ∀ n a, ∃ v, subExec n a = Except.ok v)
    (hscript : ∀ i, i < defaultMaxIterations →
      ∃ am, subScript i = Except.ok am ∧ am.tool_calls ≠ []) :
    ∀ args : JVal,
      orchExecuteFunction sqlChat advChat "consult_sql_analyst" args
        = Except.ok sqlFallbackPayload ∧
      ∀ (script : CompletionScript) (maxI fuel used : Nat) (msgs : List Msg)
        (consulted : List JVal) (timeline : List TimelineEntry) (history : List RCMsg)
        (events : List QEvent) (tcid content : String),
        script used = Except.ok ⟨content, [⟨tcid, "consult_sql_analyst", args⟩]⟩ →
        orchChatLoop script (orchExecuteFunction sqlChat advChat) maxI (fuel + 1) used
            msgs consulted timeline history events =
          orchChatLoop script (orchExecuteFunction sqlChat advChat) maxI fuel (used + 1)
            (msgs ++ [Msg.assistantCalls content [⟨tcid, "consult_sql_analyst", args⟩],
                      Msg.tool tcid (jDump sqlFallbackPayload)])
            (consulted ++ [.str "SQL Analyst"])
            (timeline ++ [⟨.str "SQL Analyst", used + 1, "completed"⟩])
            history events := by
  have hfall : ∀ q, sqlChat q = Except.ok fallbackString := by
    intro q
    rw [hsub q]
    simp only [baseChat]
    rw [baseChatLoop_exhausts subScript subExec hexec defaultMaxIterations 0
      (fun i _ h2 => hscript i (by omega))]
  have hdispatch : ∀ args : JVal,
      orchExecuteFunction sqlChat advChat "consult_sql_analyst" args
        = Except.ok sqlFallbackPayload := by
    intro args
    simp [orchExecuteFunction, hfall, sqlFallbackPayload]
  intro args
  refine ⟨hdispatch args, ?_⟩
  intro script maxI fuel used msgs consulted timeline history events tcid content hscript'
  rw [orchChatLoop_succ, hscript']
  simp [orchRunToolCalls, hdispatch args, sqlFallbackPayload, jobj2, JVal.get, JObj.find?]

/-- Witness for C9: a sub-agent whose script always requests tool calls
exhausts its budget; the delegation nonetheless produces the wrapped fallback
payload and a `"completed"` timeline entry at iteration 1. -/
theorem C9_subagent_exhaustion_completed_witness :
    orchExecuteFunction
        (fun q => (baseChat scriptAllCalls execOkNull "s" [] q defaultMaxIterations).result)
        (fun _ => .ok "advice") "consult_sql_analyst" (jobj1 "query" (.str "x"))
      = Except.ok sqlFallbackPayload ∧
    orchChatLoop
        (fun _ => .ok ⟨"", [⟨"call_1", "consult_sql_analyst", jobj1 "query" (.str "x")⟩]⟩)
        (orchExecuteFunction
          (fun q => (baseChat scriptAllCalls execOkNull "s" [] q defaultMaxIterations).result)
          (fun _ => .ok "advice")) 5 5 0 [] [] [] [] [] =
      orchChatLoop
        (fun _ => .ok ⟨"", [⟨"call_1", "consult_sql_analyst", jobj1 "query" (.str "x")⟩]⟩)
        (orchExecuteFunction
          (fun q => (baseChat scriptAllCalls execOkNull "s" [] q defaultMaxIterations).result)
          (fun _ => .ok "advice")) 5 4 1
        [Msg.assistantCalls "" [⟨"call_1", "consult_sql_analyst", jobj1 "query" (.str "x")⟩],
         Msg.tool "call_1" (jDump sqlFallbackPayload)]
        [.str "SQL Analyst"] [⟨.str "SQL Analyst", 1, "completed"⟩] [] [] :=
  have h := C9_subagent_exhaustion_completed scriptAllCalls execOkNull "s" []
    (fun q => (baseChat scriptAllCalls execOkNull "s" [] q defaultMaxIterations).result)
    (fun _ => .ok "advice") (fun q => rfl) (fun n a => ⟨.null, rfl⟩)
    (fun i _ => ⟨⟨"", [⟨"call_1", "noop", .null⟩]⟩, rfl, by simp⟩)
    (jobj1 "query" (.str "x"))
  ⟨h.1, h.2 _ 5 4 0 [] [] [] [] [] "call_1" "" rfl⟩

/-! ## Helper lemmas about the conversation manager -/

lemma cap20_eq_rtake (xs : List RCMsg) :
    (if xs.length > 20 then xs.drop (xs.length - 20) else xs) = xs.rtake 20 := by
  by_cases h : xs.length > 20
  · simp [h, List.rtake]
  · have h0 : xs.length - 20 = 0 := by omega
    simp [h, List.rtake, h0]

lemma rtake_append_rtake {α : Type} (n : Nat) (xs ys : List α) :
    ((xs.rtake n ++ ys).rtake n) = (xs ++ ys).rtake n := by
  simp only [List.rtake_eq_reverse_take_reverse, List.reverse_append, List.reverse_reverse,
    List.take_append_eq_append_take, List.take_take, List.length_reverse]
  rw [min_eq_left (by omega)]

lemma length_rtake_le {α : Type} (n : Nat) (xs : List α) : (xs.rtake n).length ≤ n := by
  simp only [List.rtake, List.length_drop]
  omega

lemma mgrLookup_nil (uid : Nat) : mgrLookup [] uid = none := rfl

lemma mgrLookup_cons (k : Nat) (v : SessionData) (tl : MgrState) (uid : Nat) :
    mgrLookup ((k, v) :: tl) uid = if k = uid then some v else mgrLookup tl uid := by
  by_cases hk : k = uid
  · subst hk
    unfold mgrLookup
    rw [List.find?_cons_of_pos _ (by simp)]
    simp
  · unfold mgrLookup
    rw [List.find?_cons_of_neg _ (by simp [hk]), if_neg hk]

lemma mgrLookup_eq_none_of_not_mem (uid : Nat) :
    ∀ convs : MgrState, uid ∉ convs.map Prod.fst → mgrLookup convs uid = none := by
  intro convs
  induction convs with
  | nil => intro _; rfl
  | cons p tl ih =>
    obtain ⟨k, v⟩ := p
    intro hmem
    rw [mgrLookup_cons]
    have hk : ¬ k = uid := fun h => hmem (by simp [h])
    rw [if_neg hk]
    exact ih (fun h => hmem (by simp [h]))

lemma mgrLookup_insert_self (uid : Nat) (d : SessionData) :
    ∀ convs : MgrState, mgrLookup (mgrInsert uid d convs) uid = some d := by
  intro convs
  induction convs with
  | nil => simp [mgrInsert, mgrLookup_cons]
  | cons p tl ih =>
    obtain ⟨k, v⟩ := p
    by_cases hk : k = uid
    · simp [mgrInsert, hk, mgrLookup_cons]
    · simp only [mgrInsert, hk, if_false]
      rw [mgrLookup_cons, if_neg hk]
      exact ih

lemma mgrLookup_insert_other (uid uid' : Nat) (d : SessionData) (hne : uid' ≠ uid) :
    ∀ convs : MgrState, mgrLookup (mgrInsert uid d convs) uid' = mgrLookup convs uid' := by
  intro convs
  induction convs with
  | nil =>
    simp only [mgrInsert, mgrLookup_cons, mgrLookup_nil]
    rw [if_neg (fun h => hne h.symm)]
  | cons p tl ih =>
    obtain ⟨k, v⟩ := p
    by_cases hk : k = uid
    · subst hk
      have hins : mgrInsert k d ((k, v) :: tl) = (k, d) :: tl := by
        simp [mgrInsert]
      rw [hins, mgrLookup_cons, mgrLookup_cons, if_neg (fun h => hne h.symm),
        if_neg (fun h => hne h.symm)]
    · simp only [mgrInsert, hk, if_false]
      rw [mgrLookup_cons, mgrLookup_cons]
      by_cases hk' : k = uid'
      · rw [if_pos hk', if_pos hk']
      · rw [if_neg hk', if_neg hk']
        exact ih

lemma mgrLookup_filter_of_true (P : Nat × SessionData → Bool) (uid : Nat) (d : SessionData) :
    ∀ convs : MgrState, mgrLookup convs uid = some d → P (uid, d) = true →
      mgrLookup (convs.filter P) uid = some d := by
  intro convs
  induction convs with
  | nil => intro h _; cases h
  | cons p tl ih =>
    obtain ⟨k, v⟩ := p
    intro h hP
    rw [mgrLookup_cons] at h
    by_cases hk : k = uid
    · subst hk
      rw [if_pos rfl] at h
      injection h with hv
      subst hv
      rw [List.filter_cons, if_pos (by simpa using hP), mgrLookup_cons, if_pos rfl]
    · rw [if_neg hk] at h
      rw [List.filter_cons]
      cases hPp : P (k, v) with
      | true =>
        rw [if_pos (by simp [hPp]), mgrLookup_cons, if_neg hk]
        exact ih h hP
      | false =>
        rw [if_neg (by simp [hPp])]
        exact ih h hP

lemma mgrLookup_filter_of_false (P : Nat × SessionData → Bool) (uid : Nat) (d : SessionData) :
    ∀ convs : MgrState, (convs.map Prod.fst).Nodup →
      mgrLookup convs uid = some d → P (uid, d) = false →
      mgrLookup (convs.filter P) uid = none := by
  intro convs
  induction convs with
  | nil => intro _ h _; cases h
  | cons p tl ih =>
    obtain ⟨k, v⟩ := p
    intro hnodup h hP
    have hnodup' : (tl.map Prod.fst).Nodup := (List.nodup_cons.mp hnodup).2
    rw [mgrLookup_cons] at h
    by_cases hk : k = uid
    · subst hk
      rw [if_pos rfl] at h
      injection h with hv
      subst hv
      have hknot : k ∉ tl.map Prod.fst := by
        simpa using (List.nodup_cons.mp hnodup).1
      rw [List.filter_cons, if_neg (by simp [hP])]
      refine mgrLookup_eq_none_of_not_mem k (tl.filter P) (fun hmem => hknot ?_)
      obtain ⟨q, hq, hqk⟩ := List.mem_map.mp hmem
      exact List.mem_map.mpr ⟨q, List.mem_of_mem_filter hq, hqk⟩
    · rw [if_neg hk] at h
      rw [List.filter_cons]
      cases hPp : P (k, v) with
      | true =>
        rw [if_pos (by simp [hPp]), mgrLookup_cons, if_neg hk]
        exact ih hnodup' h hP
      | false =>
        rw [if_neg (by simp [hPp])]
        exact ih hnodup' h hP

lemma addMessage_lookup_self (now uid : Nat) (r c : String) (convs : MgrState) :
    mgrLookup (addMessage now uid r c convs) uid =
      some ⟨(((mgrLookup convs uid).map SessionData.messages).getD []
            ++ [(⟨r, c⟩ : RCMsg)]).rtake 20, now⟩ := by
  simp only [addMessage]
  rw [cap20_eq_rtake, mgrLookup_insert_self]
  cases mgrLookup convs uid <;> rfl

/-! ## C6: histories are capped at 20 messages, FIFO -/

/-- A sequence of `add_message` calls: each record is
`(now, user_id, role, content)`. -/
def runAddCalls (calls : List (Nat × Nat × String × String)) (convs : MgrState) : MgrState :=
  calls.foldl (fun s c => addMessage c.1 c.2.1 c.2.2.1 c.2.2.2 s) convs

/-- The messages a call sequence appends for one caller, in order. -/
def msgsFor (uid : Nat) (calls : List (Nat × Nat × String × String)) : List RCMsg :=
  calls.filterMap (fun c => if c.2.1 = uid then some ⟨c.2.2.1, c.2.2.2⟩ else none)

lemma runAddCalls_messages :
    ∀ (calls : List (Nat × Nat × String × String)) (convs : MgrState) (uid : Nat),
      (mgrLookup (runAddCalls calls convs) uid).map SessionData.messages =
        (if msgsFor uid calls = [] then (mgrLookup convs uid).map SessionData.messages
         else some ((((mgrLookup convs uid).map SessionData.messages).getD [] ++
            msgsFor uid calls).rtake 20)) := by
  intro calls
  induction calls with
  | nil => intro convs uid; simp [runAddCalls, msgsFor]
  | cons call rest ih =>
    intro convs uid
    obtain ⟨cnow, cuid, crole, ccontent⟩ := call
    have hstep : runAddCalls ((cnow, cuid, crole, ccontent) :: rest) convs =
        runAddCalls rest (addMessage cnow cuid crole ccontent convs) := rfl
    rw [hstep, ih]
    by_cases hu : cuid = uid
    · subst hu
      have hlook := addMessage_lookup_self cnow cuid crole ccontent convs
      have hmsgs : msgsFor cuid ((cnow, cuid, crole, ccontent) :: rest) =
          ⟨crole, ccontent⟩ :: msgsFor cuid rest := by
        simp [msgsFor]
      rw [hmsgs, hlook]
      by_cases hrest : msgsFor cuid rest = []
      · simp [hrest]
      · rw [if_neg hrest, if_neg (List.cons_ne_nil _ _)]
        show some ((((((mgrLookup convs cuid).map SessionData.messages).getD []
            ++ [(⟨crole, ccontent⟩ : RCMsg)]).rtake 20) ++ msgsFor cuid rest).rtake 20) = _
        rw [rtake_append_rtake, List.append_assoc]
        simp
    · have hlook : mgrLookup (addMessage cnow cuid crole ccontent convs) uid =
          mgrLookup convs uid := by
        unfold addMessage
        exact mgrLookup_insert_other cuid uid _ (fun h => hu h.symm) convs
      have hmsgs : msgsFor uid ((cnow, cuid, crole, ccontent) :: rest) =
          msgsFor uid rest := by
        simp [msgsFor, hu]
      rw [hmsgs, hlook]

/-- **C6.**  For every sequence of `add_message` calls starting from an empty
manager, a caller's stored history never exceeds 20 messages, and it equals
exactly the last 20 messages added for that caller, in order (oldest dropped
first). -/
theorem C6_history_capped_fifo (calls : List (Nat × Nat × String × String)) (uid : Nat)
    (d : SessionData) (h : mgrLookup (runAddCalls calls []) uid = some d) :
    d.messages.length ≤ 20 ∧ d.messages = (msgsFor uid calls).rtake 20 := by
  have hm := runAddCalls_messages calls [] uid
  rw [h] at hm
  have hbase : mgrLookup ([] : MgrState) uid = none := rfl
  rw [hbase] at hm
  by_cases hempty : msgsFor uid calls = []
  · rw [hempty] at hm; simp at hm
  · simp only [hempty, if_false, Option.map_some, Option.map_none, Option.getD_none,
      List.nil_append] at hm
    have hd : d.messages = (msgsFor uid calls).rtake 20 := by
      injection hm
    exact ⟨hd ▸ length_rtake_le 20 _, hd⟩

/-- 21 identical `add_message` calls for caller 7. -/
def calls21 : List (Nat × Nat × String × String) :=
  List.replicate 21 (0, 7, "user", "m")

/-- Witness for C6: after 21 appends the stored history holds exactly the last
20 messages. -/
theorem C6_history_capped_fifo_witness :
    (SessionData.mk (List.replicate 20 ⟨"user", "m"⟩) 0).messages.length ≤ 20 ∧
    (SessionData.mk (List.replicate 20 ⟨"user", "m"⟩) 0).messages =
      (msgsFor 7 calls21).rtake 20 :=
  C6_history_capped_fifo calls21 7 ⟨List.replicate 20 ⟨"user", "m"⟩, 0⟩ (by decide)

/-! ## C7 and C10: lazy stale-session eviction -/

lemma cleanup_lookup_none (now : Nat) (convs : MgrState) (uid : Nat) (d : SessionData)
    (hkeys : (convs.map Prod.fst).Nodup) (hlook : mgrLookup convs uid = some d)
    (hstale : d.last_updated + timeoutSeconds < now) :
    mgrLookup (cleanupOldConversations now convs) uid = none := by
  apply mgrLookup_filter_of_false _ uid d convs hkeys hlook
  simp only [timeoutSeconds] at hstale ⊢
  simp only [decide_eq_false_iff_not, not_not]
  omega

lemma cleanup_lookup_some (now : Nat) (convs : MgrState) (uid : Nat) (d : SessionData)
    (hlook : mgrLookup convs uid = some d)
    (hfresh : now ≤ d.last_updated + timeoutSeconds) :
    mgrLookup (cleanupOldConversations now convs) uid = some d := by
  apply mgrLookup_filter_of_true _ uid d convs hlook
  simp only [timeoutSeconds] at hfresh ⊢
  simp only [decide_eq_true_eq]
  omega

lemma getHistory_snd (now uid : Nat) (convs : MgrState) :
    (getHistory now uid convs).2 = cleanupOldConversations now convs := by
  simp only [getHistory]
  cases mgrLookup (cleanupOldConversations now convs) uid <;> rfl

/-- **C7.**  A session idle for strictly more than 30 minutes is lazily
evicted by the next `get_history` call, which returns an empty history (not an
error); a session whose last mutation is within the last 30 minutes returns
its stored messages unchanged. -/
theorem C7_stale_session_lazy_eviction (convs : MgrState) (uid : Nat) (d : SessionData)
    (now : Nat) (hkeys : (convs.map Prod.fst).Nodup)
    (hlook : mgrLookup convs uid = some d) :
    (d.last_updated + timeoutSeconds < now →
      (getHistory now uid convs).1 = [] ∧
      mgrLookup (getHistory now uid convs).2 uid = none) ∧
    (now ≤ d.last_updated + timeoutSeconds →
      (getHistory now uid convs).1 = d.messages) := by
  constructor
  · intro hstale
    have hnone := cleanup_lookup_none now convs uid d hkeys hlook hstale
    refine ⟨?_, ?_⟩
    · simp [getHistory, hnone]
    · rw [getHistory_snd]
      exact hnone
  · intro hfresh
    have hsome := cleanup_lookup_some now convs uid d hlook hfresh
    simp [getHistory, hsome]

/-- A one-session manager state for the C7 witness: caller 1, last mutated at
time 100. -/
def convsOne : MgrState := [(1, ⟨[⟨"user", "hi"⟩], 100⟩)]

/-- Witness for C7: at time 2000 (idle 1900 s > 1800 s) caller 1's history
reads back empty and the session is gone; at time 1900 (idle exactly 30
minutes, not more) the stored message is returned unchanged. -/
theorem C7_stale_session_lazy_eviction_witness :
    ((getHistory 2000 1 convsOne).1 = [] ∧
      mgrLookup (getHistory 2000 1 convsOne).2 1 = none) ∧
    (getHistory 1900 1 convsOne).1 = [⟨"user", "hi"⟩] :=
  ⟨(C7_stale_session_lazy_eviction convsOne 1 ⟨[⟨"user", "hi"⟩], 100⟩ 2000
      (by decide) rfl).1 (by decide),
   (C7_stale_session_lazy_eviction convsOne 1 ⟨[⟨"user", "hi"⟩], 100⟩ 1900
      (by decide) rfl).2 (by decide)⟩

/-- **C10.**  The stale-session sweep runs only inside `get_history`: when it
runs it removes every caller idle for more than 30 minutes (not just the
queried caller's session); `add_message` and `clear_history` never evict —
`add_message` to a session idle for over 30 minutes appends to the old
messages and refreshes the timestamp, and both leave every other caller's
session untouched no matter how stale. -/
theorem C10_sweep_only_in_get_history :
    (∀ (now uid : Nat) (r c : String) (convs : MgrState) (uid' : Nat) (d' : SessionData),
      uid' ≠ uid → mgrLookup convs uid' = some d' →
      mgrLookup (addMessage now uid r c convs) uid' = some d') ∧
    (∀ (uid : Nat) (convs : MgrState) (uid' : Nat) (d' : SessionData),
      uid' ≠ uid → mgrLookup convs uid' = some d' →
      mgrLookup (clearHistory uid convs) uid' = some d') ∧
    (∀ (now uid : Nat) (convs : MgrState) (uid' : Nat) (d' : SessionData),
      (convs.map Prod.fst).Nodup → mgrLookup convs uid' = some d' →
      d'.last_updated + timeoutSeconds < now →
      mgrLookup (getHistory now uid convs).2 uid' = none) ∧
    (∀ (now uid : Nat) (r c : String) (convs : MgrState) (d : SessionData),
      mgrLookup convs uid = some d →
      mgrLookup (addMessage now uid r c convs) uid =
        some ⟨(d.messages ++ [(⟨r, c⟩ : RCMsg)]).rtake 20, now⟩) := by
  refine ⟨?_, ?_, ?_, ?_⟩
  · intro now uid r c convs uid' d' hne hlook
    simp only [addMessage]
    rw [mgrLookup_insert_other uid uid' _ hne convs]
    exact hlook
  · intro uid convs uid' d' hne hlook
    apply mgrLookup_filter_of_true _ uid' d' convs hlook
    simp [hne]
  · intro now uid convs uid' d' hkeys hlook hstale
    rw [getHistory_snd]
    exact cleanup_lookup_none now convs uid' d' hkeys hlook hstale
  · intro now uid r c convs d hlook
    rw [addMessage_lookup_self, hlook]
    rfl

/-- A two-session manager state for the C10 witness: caller 2's session is
long stale. -/
def convsTwo : MgrState := [(1, ⟨[⟨"user", "hi"⟩], 5000⟩), (2, ⟨[⟨"user", "old"⟩], 100⟩)]

/-- Witness for C10: `add_message` for caller 1 at time 5000 leaves caller 2's
stale session in place and appends for caller 1; `clear_history` for caller 1
leaves caller 2 untouched; a `get_history` for caller 1 at time 5000 sweeps
caller 2 away. -/
theorem C10_sweep_only_in_get_history_witness :
    mgrLookup (addMessage 5000 1 "user" "more" convsTwo) 2
      = some ⟨[⟨"user", "old"⟩], 100⟩ ∧
    mgrLookup (clearHistory 1 convsTwo) 2 = some ⟨[⟨"user", "old"⟩], 100⟩ ∧
    mgrLookup (getHistory 5000 1 convsTwo).2 2 = none ∧
    mgrLookup (addMessage 5000 2 "user" "back" convsTwo) 2
      = some ⟨[⟨"user", "old"⟩, ⟨"user", "back"⟩].rtake 20, 5000⟩ :=
  ⟨C10_sweep_only_in_get_history.1 5000 1 "user" "more" convsTwo 2
      ⟨[⟨"user", "old"⟩], 100⟩ (by decide) rfl,
   C10_sweep_only_in_get_history.2.1 1 convsTwo 2 ⟨[⟨"user", "old"⟩], 100⟩ (by decide) rfl,
   C10_sweep_only_in_get_history.2.2.1 5000 1 convsTwo 2 ⟨[⟨"user", "old"⟩], 100⟩
      (by decide) rfl (by decide),
   C10_sweep_only_in_get_history.2.2.2 5000 2 "user" "back" convsTwo
      ⟨[⟨"user", "old"⟩], 100⟩ rfl⟩

/-! ## C8: the streaming frame protocol -/

/-- Counterexample to C8 as stated: when the setup *before* the `yield start`
raises (the orchestrator's constructor queries the database for the user
profile inside the `try` block), the emitted sequence is the single `error`
frame — it does not begin with a `start` frame. -/
theorem C8_counterexample :
    eventGenerator (StreamRun.initFail "OperationalError: connection refused")
      = [Frame.error "OperationalError: connection refused"] ∧
    (eventGenerator (StreamRun.initFail "OperationalError: connection refused")).head?
      ≠ some Frame.start := by
  constructor
  · rfl
  · decide

/-- **C8 (amended).**  Every emitted frame sequence ends with exactly one
terminal frame (`done` or `error`), which is its last frame; it begins with
`start` in every run where the setup preceding the `start` frame does not
raise, and between `start` and the terminal frames the only frames are the
forwarded queue records, in enqueue order; when the orchestration invocation
raises after `start`, an `error` frame is emitted and no `done` frame ever
appears; when the setup raises before `start`, the sequence is the single
`error` frame. -/
theorem C8_amended_frame_protocol (run : StreamRun) :
    (eventGenerator run).countP (fun f => isTerminalFrame f) = 1 ∧
    (∃ f, (eventGenerator run).getLast? = some f ∧ isTerminalFrame f = true) ∧
    (∀ events r, run = StreamRun.success events r →
      eventGenerator run =
        Frame.start :: events.map Frame.event ++
          [Frame.response r.response r.agents_consulted r.iterations, Frame.done]) ∧
    (∀ events k m, run = StreamRun.chatFail events k m →
      (eventGenerator run).head? = some Frame.start ∧
      Frame.done ∉ eventGenerator run) ∧
    (∀ m, run = StreamRun.initFail m → eventGenerator run = [Frame.error m]) := by
  cases run with
  | initFail m =>
    refine ⟨by simp [eventGenerator, isTerminalFrame], ⟨Frame.error m, rfl, rfl⟩,
      ?_, ?_, ?_⟩
    · intro events r h; cases h
    · intro events k m' h; cases h
    · intro m' h; cases h; rfl
  | chatFail events k m =>
    refine ⟨?_, ⟨Frame.error m, ?_, rfl⟩, ?_, ?_, ?_⟩
    · simp only [eventGenerator, isTerminalFrame, List.countP_cons, List.countP_append,
        List.countP_map, Function.comp]
      have hz : ((events.take k).map Frame.event).countP (fun f => isTerminalFrame f) = 0 := by
        rw [List.countP_eq_zero]
        intro a ha
        obtain ⟨e, _, rfl⟩ := List.mem_map.mp ha
        simp [isTerminalFrame]
      simpa [isTerminalFrame] using hz
    · have h : eventGenerator (StreamRun.chatFail events k m) =
          (Frame.start :: (events.take k).map Frame.event) ++ [Frame.error m] := by
        simp [eventGenerator]
      rw [h, List.getLast?_concat]
    · intro events' r h; cases h
    · intro events' k' m' h
      cases h
      refine ⟨rfl, ?_⟩
      simp only [eventGenerator, List.mem_cons, List.mem_append, List.mem_singleton]
      rintro ((h | h) | (h | h))
      · cases h
      · obtain ⟨e, _, he⟩ := List.mem_map.mp h
        cases he
      · cases h
      · cases h
    · intro m' h; cases h
  | success events r =>
    refine ⟨?_, ⟨Frame.done, ?_, rfl⟩, ?_, ?_, ?_⟩
    · simp [eventGenerator, isTerminalFrame, List.countP_cons, List.countP_append,
        List.countP_map, Function.comp]
    · have h : eventGenerator (StreamRun.success events r) =
          (Frame.start :: events.map Frame.event ++
            [Frame.response r.response r.agents_consulted r.iterations]) ++ [Frame.done] := by
        simp [eventGenerator]
      rw [h, List.getLast?_concat]
    · intro events' r' h; cases h; rfl
    · intro events' k' m' h; cases h
    · intro m' h; cases h

/-- Witness for the amended C8: a successful run with one queue record yields
`start`, the forwarded record, `response`, `done`; a failed orchestration
yields no `done` frame. -/
theorem C8_amended_frame_protocol_witness :
    eventGenerator
        (StreamRun.success [⟨"agent-activity", "SQL Analyst", .null⟩] ⟨"ok", [], [], 1⟩) =
      [Frame.start, Frame.event ⟨"agent-activity", "SQL Analyst", .null⟩,
       Frame.response "ok" [] 1, Frame.done] ∧
    Frame.done ∉ eventGenerator (StreamRun.chatFail [] 0 "boom") :=
  ⟨(C8_amended_frame_protocol
      (StreamRun.success [⟨"agent-activity", "SQL Analyst", .null⟩] ⟨"ok", [], [], 1⟩)).2.2.1
      [⟨"agent-activity", "SQL Analyst", .null⟩] ⟨"ok", [], [], 1⟩ rfl,
   ((C8_amended_frame_protocol (StreamRun.chatFail [] 0 "boom")).2.2.2.1
      [] 0 "boom" rfl).2⟩

end FinTracker
